import Mathlib

/-!
Verification development for the render Discord-bot repository.

The repository contains several near-duplicate revisions of the same bot.
The components relevant to the frozen claims are embedded here:

* src/kb/chunk.js         — namespace ChunkJs  (chunker with zero-clamp)
* src/kb/kb.js            — namespace KbJs    (bot variant: chunker with
                             end-of-text break, unfiltered kbSearch,
                             batched kb-add handler, ask handler with a
                             dedicated try/catch around the KB search)
* src/unnamed/part_001    — namespace KbModule (the kb/kb.js module imported
                             by src/index.js: kbAddDoc / kbSearch with the
                             0.18 score cutoff)
* src/index.js            — namespace IndexJs (rate limiter and ask handler)

JavaScript while-loops are embedded as fuel-indexed recursions returning
`Option`: `none` means the loop has not finished within `fuel` iterations,
so `∀ fuel, … = none` expresses non-termination and `… = some r` expresses
termination with result `r`.  Machine numbers that can go negative
(the chunkers' position variable) are `Int`; counters are `Int` so that
non-negativity is a real statement.  External collaborators (clock,
embedding provider, vector store) enter as explicit parameters, and
provider calls are recorded in an effect trace.
-/

namespace Render

/-- Model of JavaScript `String.prototype.slice(start, stop)` on a list of
characters: negative indices count from the end, indices are clamped to
`[0, length]`, and an empty list results when the effective start is not
before the effective stop. -/
def jsSlice (t : List Char) (start stop : Int) : List Char :=
  let len : Int := t.length
  let s : Int := if start < 0 then max (len + start) 0 else min start len
  let e : Int := if stop < 0 then max (len + stop) 0 else min stop len
  (t.take e.toNat).drop s.toNat

namespace ChunkJs

/-- Loop body of `chunkText` from src/kb/chunk.js, fuel-indexed:
`while (i < t.length) { const end = Math.min(t.length, i + max);
out.push(t.slice(i, end)); i = end - overlap; if (i < 0) i = 0; }`. -/
def chunkTextGo : Nat → List Char → Nat → Nat → Int → List (List Char) → Option (List (List Char))
  | 0, _, _, _, _, _ => none
  | fuel + 1, t, maxSize, overlap, i, out =>
    if i < (t.length : Int) then
      let e : Int := min (t.length : Int) (i + (maxSize : Int))
      let out2 := out ++ [jsSlice t i e]
      let i2 : Int := e - (overlap : Int)
      let i3 : Int := if i2 < 0 then 0 else i2
      chunkTextGo fuel t maxSize overlap i3 out2
    else some out

/-- Model of `chunkText(text, max, overlap)` from src/kb/chunk.js.  The
source first strips carriage returns (`(text || '').replace(/\r/g, '')`)
and starts the loop at position 0 with an empty output list.  The source
defaults are `max = 900`, `overlap = 100`. -/
def chunkText (fuel : Nat) (text : List Char) (maxSize overlap : Nat) : Option (List (List Char)) :=
  chunkTextGo fuel (text.filter (fun c => c ≠ '\r')) maxSize overlap 0 []

end ChunkJs

namespace KbJs

/-- Loop body of `chunkText` from src/kb/kb.js lines 136-146, fuel-indexed:
`while (i < text.length) { const end = Math.min(i + chunkSize, text.length);
chunks.push(text.slice(i, end)); if (end === text.length) break;
i = end - overlap; }`. -/
def chunkTextGo : Nat → List Char → Nat → Nat → Int → List (List Char) → Option (List (List Char))
  | 0, _, _, _, _, _ => none
  | fuel + 1, t, chunkSize, overlap, i, chunks =>
    if i < (t.length : Int) then
      let e : Int := min (i + (chunkSize : Int)) (t.length : Int)
      let chunks2 := chunks ++ [jsSlice t i e]
      if e = (t.length : Int) then some chunks2
      else chunkTextGo fuel t chunkSize overlap (e - (overlap : Int)) chunks2
    else some chunks

/-- Model of `chunkText(text, chunkSize, overlap)` from src/kb/kb.js.
The fuel `text.length + 1` is a modeling bound on the iteration count; the
termination theorem shows it suffices whenever `overlap < chunkSize`.
The source defaults are `chunkSize = 1200`, `overlap = 150`. -/
def chunkText (text : List Char) (chunkSize overlap : Nat) : Option (List (List Char)) :=
  chunkTextGo (text.length + 1) text chunkSize overlap 0 []

end KbJs

namespace IndexJs

/-- Per-user usage record `{ used: 0, usedPro: 0 }` (src/index.js lines 106,
115, 121). -/
structure Entry where
  used : Int
  usedPro : Int
deriving DecidableEq, Repr

/-- In-memory limiter state of src/index.js lines 90-92: the module-level
variables `globalDayKey`, `globalUsed` and the map `userDaily`.  A JS `Map`
lookup that misses returns `undefined`, modeled by `Option`. -/
structure LimiterState where
  globalDayKey : String
  globalUsed : Int
  userDaily : String → Option Entry

/-- Cap `LIMITS.GLOBAL_PER_DAY` (src/index.js line 45). -/
def GLOBAL_PER_DAY : Int := 50

/-- Cap `LIMITS.USER_PER_DAY` (src/index.js line 45). -/
def USER_PER_DAY : Int := 5

/-- Cap `LIMITS.ELEVATED_PER_DAY` (src/index.js line 45). -/
def ELEVATED_PER_DAY : Int := 20

/-- Fresh limiter state at process start (src/index.js lines 90-92):
day key from the clock, zero global counter, empty user map. -/
def initState (day : String) : LimiterState :=
  { globalDayKey := day, globalUsed := 0, userDaily := fun _ => none }

/-- Model of `resetIfNewDay()` (src/index.js lines 94-101).  The external
clock value `dayKeyNow()` is passed in as `today`. -/
def resetIfNewDay (today : String) (s : LimiterState) : LimiterState :=
  if today ≠ s.globalDayKey then
    { globalDayKey := today, globalUsed := 0, userDaily := fun _ => none }
  else s

/-- Result object of `canUse`: `{ ok }` or `{ ok, reason }`. -/
structure CanUseResult where
  ok : Bool
  reason : Option String
deriving DecidableEq, Repr

/-- Model of `canUse(userId, elevated, isOwnerHelper)` (src/index.js lines
102-111); returns the JS result together with the (possibly day-reset)
module state. -/
def canUse (today userId : String) (elevated isOwnerHelper : Bool) (s : LimiterState) :
    CanUseResult × LimiterState :=
  let s1 := resetIfNewDay today s
  if isOwnerHelper then ({ ok := true, reason := none }, s1)
  else if GLOBAL_PER_DAY ≤ s1.globalUsed then ({ ok := false, reason := some "global" }, s1)
  else
    let e := (s1.userDaily userId).getD { used := 0, usedPro := 0 }
    let per := if elevated then ELEVATED_PER_DAY else USER_PER_DAY
    let used := if elevated then e.usedPro else e.used
    if per ≤ used then ({ ok := false, reason := some "user" }, s1)
    else ({ ok := true, reason := none }, s1)

/-- Model of `consume(userId, elevated, isOwnerHelper)` (src/index.js lines
112-118).  Note that the source performs no day-key check here. -/
def consume (userId : String) (elevated isOwnerHelper : Bool) (s : LimiterState) : LimiterState :=
  if isOwnerHelper then s
  else
    let s1 := { s with globalUsed := s.globalUsed + 1 }
    let e := (s1.userDaily userId).getD { used := 0, usedPro := 0 }
    let e2 := if elevated then { e with usedPro := e.usedPro + 1 }
              else { e with used := e.used + 1 }
    { s1 with userDaily := fun u => if u = userId then some e2 else s1.userDaily u }

/-- Model of `remainingFor(userId, elevated)` (src/index.js lines 119-125). -/
def remainingFor (today userId : String) (elevated : Bool) (s : LimiterState) :
    Int × LimiterState :=
  let s1 := resetIfNewDay today s
  let e := (s1.userDaily userId).getD { used := 0, usedPro := 0 }
  let per := if elevated then ELEVATED_PER_DAY else USER_PER_DAY
  let used := if elevated then e.usedPro else e.used
  (max 0 (per - used), s1)

/-- Standard-tier counter of a user as the source reads it (missing entry
defaults to `{ used: 0, usedPro: 0 }`). -/
def getUsed (s : LimiterState) (u : String) : Int :=
  ((s.userDaily u).getD { used := 0, usedPro := 0 }).used

/-- Elevated-tier counter of a user as the source reads it. -/
def getUsedPro (s : LimiterState) (u : String) : Int :=
  ((s.userDaily u).getD { used := 0, usedPro := 0 }).usedPro

/-- All usage counters are non-negative. -/
def WellFormed (s : LimiterState) : Prop :=
  0 ≤ s.globalUsed ∧ ∀ u, 0 ≤ getUsed s u ∧ 0 ≤ getUsedPro s u

/-- One rate-limiter operation together with its arguments. -/
inductive LimiterOp where
  | canUseOp (userId : String) (elevated isOwnerHelper : Bool)
  | consumeOp (userId : String) (elevated isOwnerHelper : Bool)
  | remainingOp (userId : String) (elevated : Bool)

/-- State effect of one limiter operation (the value returned by `canUse`
or `remainingFor` is discarded; only the state matters here). -/
def applyOp (today : String) (op : LimiterOp) (s : LimiterState) : LimiterState :=
  match op with
  | .canUseOp u e b => (canUse today u e b s).2
  | .consumeOp u e b => consume u e b s
  | .remainingOp u e => (remainingFor today u e s).2

/-- Run a sequence of limiter operations left to right, all under the same
clock value `today`. -/
def runOps (today : String) (ops : List LimiterOp) (s : LimiterState) : LimiterState :=
  ops.foldl (fun s op => applyOp today op s) s

end IndexJs

/-- A provider/store call made during a KB operation, recorded in order.
`embedCall n` is one embeddings request with `n` input strings;
`upsertCall n` is one store upsert with `n` points; `searchCall` is one
store similarity search. -/
inductive KbEffect where
  | embedCall (size : Nat)
  | upsertCall (size : Nat)
  | searchCall
deriving DecidableEq, Repr

/-- Sizes of the embeddings requests in a trace, in call order. -/
def embedSizes (trace : List KbEffect) : List Nat :=
  trace.filterMap (fun eff =>
    match eff with
    | .embedCall n => some n
    | _ => none)

namespace KbModule

/-- Threshold `SCORE_MIN = 0.18` of src/unnamed/part_001 line 6, as an
exact rational standing for the JS float. -/
def SCORE_MIN : ℚ := 18 / 100

/-- Result object of `kbAddDoc`. -/
structure AddResult where
  ok : Bool
  reason : Option String
  chunks : Option Nat
deriving DecidableEq, Repr

/-- Provider calls of the enabled branch of `kbAddDoc` (src/unnamed/part_001
lines 15-21): one embeddings request carrying every chunk at once
(`await embed(chunks)`), then one upsert with one point per chunk. -/
def kbAddDocCalls (chunks : List (List Char)) : List KbEffect :=
  [KbEffect.embedCall chunks.length, KbEffect.upsertCall chunks.length]

/-- Model of `kbAddDoc({ text, … })` (src/unnamed/part_001 lines 12-23).
`qdrantConfigured` is whether `QDRANT_URL` produced a client (src/kb/qdrant.js
line 13).  The enabled branch chunks with src/kb/chunk.js's `chunkText` at
its defaults `max = 900`, `overlap = 100`; `none` means that call never
finished within `fuel` loop iterations. -/
def kbAddDoc (fuel : Nat) (qdrantConfigured : Bool) (text : List Char) :
    Option (AddResult × List KbEffect) :=
  if !qdrantConfigured then some ({ ok := false, reason := some "no-qdrant", chunks := none }, [])
  else
    match ChunkJs.chunkText fuel text 900 100 with
    | none => none
    | some chunks =>
        some ({ ok := true, reason := none, chunks := some chunks.length }, kbAddDocCalls chunks)

/-- Model of `kbSearch(query, limit)` (src/unnamed/part_001 lines 25-36)
as a function of the store's response `res` (a list of payload-score pairs
in the store's order).  The payload type is abstract.  Returns the hits
after the source's map-and-filter post-processing, together with the
provider calls (`embed(query)` embeds the single query string, then one
store search). -/
def kbSearch (α : Type) (qdrantConfigured : Bool) (res : List (α × ℚ)) :
    List (α × ℚ) × List KbEffect :=
  if !qdrantConfigured then ([], [])
  else
    ((res.map (fun hit => (hit.1, hit.2))).filter (fun hit => decide (SCORE_MIN ≤ hit.2)),
     [KbEffect.embedCall 1, KbEffect.searchCall])

end KbModule

namespace KbJs

/-- Model of the bot-variant `kbSearch(query, limit)` (src/kb/kb.js lines
189-194) as a function of the store's response: when the KB is ready it
maps every result to `{ score, …payload }` with no score filtering at all. -/
def kbSearch (α : Type) (kbReady : Bool) (res : List (α × ℚ)) : List (α × ℚ) :=
  if !kbReady then []
  else res.map (fun r => (r.1, r.2))

/-- Fuel-indexed embedding of the kb-add handler batch loop (src/kb/kb.js
lines 345-359): `for (let i = 0; i < chunks.length; i += BATCH)` with
`BATCH = 32`; each iteration slices the next at-most-32 chunks, makes one
embeddings call for the slice, pairs each returned vector with its chunk
(`vecs.map((vec, idx) => ({ …, content: slice[idx], vec }))`), upserts the
items, and adds `items.length` to `inserted`.  The provider is modeled per
the §6 contract as `f` returning one vector per input string in order.
Result: (inserted, provider-call trace in order, items in insertion order).
The fuel counts loop iterations; `chunks.length` always suffices. -/
def kbAddLoopGo {α β : Type} (f : α → β) : Nat → List α → Nat × List KbEffect × List (α × β)
  | _, [] => (0, [], [])
  | 0, _ :: _ => (0, [], [])
  | fuel + 1, c :: cs =>
    let slice := (c :: cs).take 32
    let vecs := slice.map f
    let items := slice.zip vecs
    let rest := kbAddLoopGo f fuel ((c :: cs).drop 32)
    (items.length + rest.1,
     KbEffect.embedCall slice.length :: KbEffect.upsertCall items.length :: rest.2.1,
     items ++ rest.2.2)

/-- The kb-add handler batch loop run to completion on a chunk list. -/
def kbAddLoop {α β : Type} (f : α → β) (chunks : List α) : Nat × List KbEffect × List (α × β) :=
  kbAddLoopGo f chunks.length chunks

/-- Batch sizes the loop produces for an input of a given length:
`min n 32` repeatedly until the input is exhausted (fuel-indexed, `n`
iterations always suffice). -/
def batchSizesGo : Nat → Nat → List Nat
  | _, 0 => []
  | 0, _ + 1 => []
  | fuel + 1, n + 1 => min (n + 1) 32 :: batchSizesGo fuel (n + 1 - 32)

/-- Batch sizes for an input of length `n`. -/
def batchSizes (n : Nat) : List Nat :=
  batchSizesGo n n

/-- Outcome of an ask/ask-pro interaction, collapsed to what the claims
distinguish: a produced answer, or an error reply without an answer. -/
inductive AskOutcome where
  | answer (text : String)
  | errorReply
deriving DecidableEq, Repr

/-- Models the KB-context step and continuation of the kb.js ask handler
(src/kb/kb.js lines 440-471) in the claim's situation: `KB_READY` and
`OPENAI_API_KEY` are set.  `kbOutcome` is the outcome of
`withTimeout(kbSearch(question, …))`: `ok hits` (title-content pairs), or
`error` for a timeout or exception.  The source initializes
`let contexts = []`, fills it inside `try` from the hits, and on `catch`
only logs (`console.warn`), so an error leaves `contexts` empty; the
handler then builds the prompt from `contexts` and calls the chat model
(`llm`, modeled total — its own failure handling is separate) either way. -/
def askHandler (kbOutcome : Except String (List (String × String)))
    (llm : List String → String) : AskOutcome :=
  let contexts :=
    match kbOutcome with
    | .ok hits => hits.map (fun h => "Title: " ++ h.1 ++ "\nContent: " ++ h.2)
    | .error _ => []
  AskOutcome.answer (llm contexts)

end KbJs

namespace IndexJs

/-- Models the ask/ask-pro handler of src/index.js lines 631-671 as a
function of the KB search outcome.  `const hits = await kbSearch(msg, 5)`
sits inside the handler's single `try` block with no inner catch, so a
rejected `kbSearch` jumps to the `catch` (line 653), which sends an error
reply and never reaches the chat-model call; on success the handler joins
the formatted hits (modeled as the pre-formatted context blocks) into the
prompt and answers with the chat-model output `llm`. -/
def askHandler (kbOutcome : Except String (List String))
    (llm : String → String) : KbJs.AskOutcome :=
  match kbOutcome with
  | .error _ => KbJs.AskOutcome.errorReply
  | .ok hits => KbJs.AskOutcome.answer (llm (String.intercalate "\n\n" hits))

end IndexJs

namespace IndexJs

/-- The limiter state after fifty `consume` calls (standard tier, no
bypass) starting from a fresh state: the scenario of the 51st-request
test. -/
def afterFiftyConsumes (day : String) : LimiterState :=
  (consume "u" false false)^[50] (initState day)

/-- Pointwise comparison of all usage counters of two limiter states. -/
def CountersLE (s s2 : LimiterState) : Prop :=
  s.globalUsed ≤ s2.globalUsed ∧
  ∀ u, getUsed s u ≤ getUsed s2 u ∧ getUsedPro s u ≤ getUsedPro s2 u

/-- A concrete same-day state with the global counter at its cap. -/
def sampleGlobalCapState : LimiterState :=
  { globalDayKey := "2024-05-01", globalUsed := 50, userDaily := fun _ => none }

/-- A concrete same-day state with user w at both per-user caps. -/
def sampleUserCapState : LimiterState :=
  { globalDayKey := "2024-05-01", globalUsed := 0,
    userDaily := fun v => if v = "w" then some { used := 5, usedPro := 20 } else none }

/-- A concrete mixed sequence of limiter operations. -/
def sampleOps : List LimiterOp :=
  [LimiterOp.consumeOp "a" false false, LimiterOp.canUseOp "a" false false,
   LimiterOp.consumeOp "a" true false, LimiterOp.remainingOp "a" true,
   LimiterOp.consumeOp "b" false true]

end IndexJs

namespace KbJs

/-- Expected provider-call trace of the batch loop for given batch sizes:
for each batch, one embeddings call then one upsert, in batch order. -/
def batchTrace (sizes : List Nat) : List KbEffect :=
  sizes.foldr (fun n acc => KbEffect.embedCall n :: KbEffect.upsertCall n :: acc) []

end KbJs

end Render

example :
    Render.KbJs.chunkText "abcdefghijklmnopqrstuvwxy".toList 10 0 =
      some ["abcdefghij".toList, "klmnopqrst".toList, "uvwxy".toList] := by decide

example : Render.KbJs.chunkText "abcde".toList 900 100 = some ["abcde".toList] := by decide

example : Render.ChunkJs.chunkText 50 "abcdefghijklmnopqrstuvwxy".toList 10 0 =
    some ["abcdefghij".toList, "klmnopqrst".toList, "uvwxy".toList] := by decide

example : Render.ChunkJs.chunkText 50 "abcde".toList 900 100 = none := by decide

namespace Render

namespace IndexJs

lemma resetIfNewDay_eq_self {today : String} {s : LimiterState} (h : s.globalDayKey = today) :
    resetIfNewDay today s = s := by
  simp [resetIfNewDay, h]

lemma resetIfNewDay_of_ne {today : String} {s : LimiterState} (h : today ≠ s.globalDayKey) :
    resetIfNewDay today s =
      { globalDayKey := today, globalUsed := 0, userDaily := fun _ => none } := by
  simp [resetIfNewDay, h]

lemma canUse_state (today userId : String) (elevated isOwnerHelper : Bool) (s : LimiterState) :
    (canUse today userId elevated isOwnerHelper s).2 = resetIfNewDay today s := by
  simp only [canUse]
  repeat' split
  all_goals rfl

lemma remainingFor_state (today userId : String) (elevated : Bool) (s : LimiterState) :
    (remainingFor today userId elevated s).2 = resetIfNewDay today s := rfl

lemma consume_globalDayKey (userId : String) (elevated isOwnerHelper : Bool) (s : LimiterState) :
    (consume userId elevated isOwnerHelper s).globalDayKey = s.globalDayKey := by
  unfold consume
  split <;> rfl

lemma countersLE_refl (s : LimiterState) : CountersLE s s :=
  ⟨le_rfl, fun _ => ⟨le_rfl, le_rfl⟩⟩

lemma countersLE_trans {s1 s2 s3 : LimiterState} (h1 : CountersLE s1 s2) (h2 : CountersLE s2 s3) :
    CountersLE s1 s3 :=
  ⟨le_trans h1.1 h2.1, fun u =>
    ⟨le_trans (h1.2 u).1 (h2.2 u).1, le_trans (h1.2 u).2 (h2.2 u).2⟩⟩

lemma consume_countersLE (userId : String) (elevated isOwnerHelper : Bool) (s : LimiterState) :
    CountersLE s (consume userId elevated isOwnerHelper s) := by
  cases isOwnerHelper with
  | true => exact countersLE_refl s
  | false =>
    refine ⟨by simp [consume], fun u => ?_⟩
    by_cases hu : u = userId
    · subst hu
      cases elevated <;> simp [consume, getUsed, getUsedPro]
    · simp [consume, getUsed, getUsedPro, hu]

lemma consume_wellFormed (userId : String) (elevated isOwnerHelper : Bool) (s : LimiterState)
    (hs : WellFormed s) : WellFormed (consume userId elevated isOwnerHelper s) := by
  have hle := consume_countersLE userId elevated isOwnerHelper s
  exact ⟨le_trans hs.1 hle.1, fun u =>
    ⟨le_trans (hs.2 u).1 (hle.2 u).1, le_trans (hs.2 u).2 (hle.2 u).2⟩⟩

end IndexJs

end Render

namespace Render

/-- C10: for every limiter state whose stored day key equals today, `canUse`
and `remainingFor` leave the state — global counter, day key, and every
per-user counter — exactly unchanged; only `consume` mutates anything. -/
theorem canUse_remaining_frame :
    ∀ (today userId : String) (elevated isOwnerHelper : Bool) (s : IndexJs.LimiterState),
      s.globalDayKey = today →
      (IndexJs.canUse today userId elevated isOwnerHelper s).2 = s ∧
      (IndexJs.remainingFor today userId elevated s).2 = s := by
  intro today userId elevated isOwnerHelper s h
  rw [IndexJs.canUse_state, IndexJs.remainingFor_state, IndexJs.resetIfNewDay_eq_self h]
  exact ⟨rfl, rfl⟩

/-- Witness for the frame theorem at a concrete same-day state. -/
theorem canUse_remaining_frame_witness :
    (IndexJs.canUse "2024-05-01" "alice" false false
        { globalDayKey := "2024-05-01", globalUsed := 3, userDaily := fun _ => none }).2 =
      { globalDayKey := "2024-05-01", globalUsed := 3, userDaily := fun _ => none } ∧
    (IndexJs.remainingFor "2024-05-01" "alice" false
        { globalDayKey := "2024-05-01", globalUsed := 3, userDaily := fun _ => none }).2 =
      { globalDayKey := "2024-05-01", globalUsed := 3, userDaily := fun _ => none } :=
  canUse_remaining_frame "2024-05-01" "alice" false false _ rfl

/-- C3: with bypass set, `canUse` allows regardless of state; otherwise, on a
current-day state, it denies with reason global when the global counter has
reached `GLOBAL_PER_DAY` (this check comes before any per-user lookup, hence
holds for every user), else denies with reason user when the requester's
relevant tier counter has reached its cap, else allows; and after fifty
`consume` calls the 51st `canUse` of any non-bypass user is denied with
reason global while a bypass user is still allowed. -/
theorem canUse_spec :
    (∀ (today userId : String) (elevated : Bool) (s : IndexJs.LimiterState),
      (IndexJs.canUse today userId elevated true s).1 = { ok := true, reason := none }) ∧
    (∀ (today userId : String) (elevated : Bool) (s : IndexJs.LimiterState),
      s.globalDayKey = today → IndexJs.GLOBAL_PER_DAY ≤ s.globalUsed →
      (IndexJs.canUse today userId elevated false s).1 =
        { ok := false, reason := some "global" }) ∧
    (∀ (today userId : String) (s : IndexJs.LimiterState),
      s.globalDayKey = today → s.globalUsed < IndexJs.GLOBAL_PER_DAY →
      ((IndexJs.USER_PER_DAY ≤ IndexJs.getUsed s userId →
          (IndexJs.canUse today userId false false s).1 =
            { ok := false, reason := some "user" }) ∧
       (IndexJs.ELEVATED_PER_DAY ≤ IndexJs.getUsedPro s userId →
          (IndexJs.canUse today userId true false s).1 =
            { ok := false, reason := some "user" }) ∧
       (IndexJs.getUsed s userId < IndexJs.USER_PER_DAY →
          (IndexJs.canUse today userId false false s).1 = { ok := true, reason := none }) ∧
       (IndexJs.getUsedPro s userId < IndexJs.ELEVATED_PER_DAY →
          (IndexJs.canUse today userId true false s).1 = { ok := true, reason := none }))) ∧
    (∀ (userId : String) (elevated : Bool),
      (IndexJs.canUse "2024-01-05" userId elevated false
          (IndexJs.afterFiftyConsumes "2024-01-05")).1 =
        { ok := false, reason := some "global" } ∧
      (IndexJs.canUse "2024-01-05" userId elevated true
          (IndexJs.afterFiftyConsumes "2024-01-05")).1 = { ok := true, reason := none }) := by
  refine ⟨fun today userId elevated s => rfl, ?_, ?_, ?_⟩
  · intro today userId elevated s h1 h2
    simp [IndexJs.canUse, IndexJs.resetIfNewDay_eq_self h1, h2]
  · intro today userId s h1 h2
    have h2' : ¬ IndexJs.GLOBAL_PER_DAY ≤ s.globalUsed := not_le.mpr h2
    refine ⟨?_, ?_, ?_, ?_⟩ <;> intro h3
    · have h3' : IndexJs.USER_PER_DAY ≤
          ((s.userDaily userId).getD { used := 0, usedPro := 0 }).used := h3
      simp [IndexJs.canUse, IndexJs.resetIfNewDay_eq_self h1, h2', h3']
    · have h3' : IndexJs.ELEVATED_PER_DAY ≤
          ((s.userDaily userId).getD { used := 0, usedPro := 0 }).usedPro := h3
      simp [IndexJs.canUse, IndexJs.resetIfNewDay_eq_self h1, h2', h3']
    · have h3' : ¬ IndexJs.USER_PER_DAY ≤
          ((s.userDaily userId).getD { used := 0, usedPro := 0 }).used := not_le.mpr h3
      simp [IndexJs.canUse, IndexJs.resetIfNewDay_eq_self h1, h2', h3']
    · have h3' : ¬ IndexJs.ELEVATED_PER_DAY ≤
          ((s.userDaily userId).getD { used := 0, usedPro := 0 }).usedPro := not_le.mpr h3
      simp [IndexJs.canUse, IndexJs.resetIfNewDay_eq_self h1, h2', h3']
  · intro userId elevated
    have hday : (IndexJs.afterFiftyConsumes "2024-01-05").globalDayKey = "2024-01-05" := by
      decide
    have hg : IndexJs.GLOBAL_PER_DAY ≤ (IndexJs.afterFiftyConsumes "2024-01-05").globalUsed := by
      decide
    exact ⟨by simp [IndexJs.canUse, IndexJs.resetIfNewDay_eq_self hday, hg], rfl⟩

/-- Witness instantiating every hypothesis-bearing part of the `canUse`
specification at concrete states. -/
theorem canUse_spec_witness :
    (IndexJs.canUse "2024-05-01" "w" false true (IndexJs.initState "2024-05-01")).1 =
      { ok := true, reason := none } ∧
    (IndexJs.canUse "2024-05-01" "w" false false IndexJs.sampleGlobalCapState).1 =
      { ok := false, reason := some "global" } ∧
    (IndexJs.canUse "2024-05-01" "w" false false IndexJs.sampleUserCapState).1 =
      { ok := false, reason := some "user" } ∧
    (IndexJs.canUse "2024-05-01" "w" true false IndexJs.sampleUserCapState).1 =
      { ok := false, reason := some "user" } ∧
    (IndexJs.canUse "2024-05-01" "w" false false (IndexJs.initState "2024-05-01")).1 =
      { ok := true, reason := none } ∧
    (IndexJs.canUse "2024-05-01" "w" true false (IndexJs.initState "2024-05-01")).1 =
      { ok := true, reason := none } ∧
    (IndexJs.canUse "2024-01-05" "w" false false (IndexJs.afterFiftyConsumes "2024-01-05")).1 =
      { ok := false, reason := some "global" } ∧
    (IndexJs.canUse "2024-01-05" "w" false true (IndexJs.afterFiftyConsumes "2024-01-05")).1 =
      { ok := true, reason := none } := by
  refine ⟨canUse_spec.1 "2024-05-01" "w" false (IndexJs.initState "2024-05-01"),
    canUse_spec.2.1 "2024-05-01" "w" false IndexJs.sampleGlobalCapState rfl (by decide),
    (canUse_spec.2.2.1 "2024-05-01" "w" IndexJs.sampleUserCapState rfl (by decide)).1 (by decide),
    (canUse_spec.2.2.1 "2024-05-01" "w" IndexJs.sampleUserCapState rfl (by decide)).2.1
      (by decide),
    (canUse_spec.2.2.1 "2024-05-01" "w" (IndexJs.initState "2024-05-01") rfl (by decide)).2.2.1
      (by decide),
    (canUse_spec.2.2.1 "2024-05-01" "w" (IndexJs.initState "2024-05-01") rfl (by decide)).2.2.2
      (by decide),
    (canUse_spec.2.2.2 "w" false).1, (canUse_spec.2.2.2 "w" false).2⟩

/-- C5 counterexample: `consume` performs no day-key comparison at all.  On
a state whose stored day key is 2024-01-01 (yesterday relative to any later
clock day), it leaves the stale day key in place and increments the stale
global counter from 7 to 8 — resetting first, as the claim states every
operation does, would instead yield a global counter of 1. -/
theorem consume_skips_reset_cex :
    (IndexJs.consume "u" false false
        { globalDayKey := "2024-01-01", globalUsed := 7, userDaily := fun _ => none }).globalDayKey
      = "2024-01-01" ∧
    (IndexJs.consume "u" false false
        { globalDayKey := "2024-01-01", globalUsed := 7, userDaily := fun _ => none }).globalUsed
      = 8 ∧
    (IndexJs.consume "u" false false
        { globalDayKey := "2024-01-01", globalUsed := 7, userDaily := fun _ => none }).globalUsed
      ≠ 1 :=
  ⟨rfl, rfl, by decide⟩

/-- C5 (amended): `canUse` and `remainingFor` first compare the stored day
key with today's and, when they differ, reset the global counter to zero,
clear all per-user counters and stamp today's key before evaluating
anything; `consume` performs no such check (see the counterexample).
Concretely, with the stored day key set to yesterday, `canUse` allows even
from a state at both caps, returning the fully reset state. -/
theorem limiter_day_rollover_amended :
    (∀ (today userId : String) (elevated isOwnerHelper : Bool) (s : IndexJs.LimiterState),
      today ≠ s.globalDayKey →
      (IndexJs.canUse today userId elevated isOwnerHelper s).2 =
        { globalDayKey := today, globalUsed := 0, userDaily := fun _ => none } ∧
      (IndexJs.remainingFor today userId elevated s).2 =
        { globalDayKey := today, globalUsed := 0, userDaily := fun _ => none }) ∧
    (IndexJs.canUse "2024-01-02" "u" false false
        { globalDayKey := "2024-01-01", globalUsed := 50,
          userDaily := fun v => if v = "u" then some { used := 5, usedPro := 20 } else none } =
      ({ ok := true, reason := none },
        { globalDayKey := "2024-01-02", globalUsed := 0, userDaily := fun _ => none })) := by
  constructor
  · intro today userId elevated isOwnerHelper s h
    rw [IndexJs.canUse_state, IndexJs.remainingFor_state, IndexJs.resetIfNewDay_of_ne h]
    exact ⟨rfl, rfl⟩
  · rfl

/-- Witness for the amended day-rollover theorem at a concrete stale
state. -/
theorem limiter_day_rollover_witness :
    (IndexJs.canUse "2024-01-02" "w" false false
        { globalDayKey := "2024-01-01", globalUsed := 7, userDaily := fun _ => none }).2 =
      { globalDayKey := "2024-01-02", globalUsed := 0, userDaily := fun _ => none } ∧
    (IndexJs.remainingFor "2024-01-02" "w" false
        { globalDayKey := "2024-01-01", globalUsed := 7, userDaily := fun _ => none }).2 =
      { globalDayKey := "2024-01-02", globalUsed := 0, userDaily := fun _ => none } :=
  limiter_day_rollover_amended.1 "2024-01-02" "w" false false _ (by decide)

/-- C6: with no vector-store endpoint configured, `kbAddDoc` returns
`ok: false` making no provider or store call whatsoever (for any fuel, in
particular fuel 0: the chunker is never entered), and `kbSearch` returns
the empty hit list with no calls either. -/
theorem kb_disabled_noop :
    (∀ (fuel : Nat) (text : List Char),
      KbModule.kbAddDoc fuel false text =
        some ({ ok := false, reason := some "no-qdrant", chunks := none }, [])) ∧
    (∀ (α : Type) (res : List (α × ℚ)), KbModule.kbSearch α false res = ([], [])) :=
  ⟨fun _ _ => rfl, fun _ _ => rfl⟩

end Render

namespace Render

/-- C9: within a single day (every operation runs while the stored day key
equals today, so no rollover reset fires), any sequence of limiter
operations leaves every usage counter — global, per-user standard and
per-user elevated — monotonically non-decreasing, keeps them all
non-negative, and never changes the day key. -/
theorem counters_monotone :
    ∀ (today : String) (ops : List IndexJs.LimiterOp) (s : IndexJs.LimiterState),
      s.globalDayKey = today → IndexJs.WellFormed s →
      IndexJs.CountersLE s (IndexJs.runOps today ops s) ∧
      IndexJs.WellFormed (IndexJs.runOps today ops s) ∧
      (IndexJs.runOps today ops s).globalDayKey = today := by
  intro today ops
  induction ops with
  | nil => exact fun s h hw => ⟨IndexJs.countersLE_refl s, hw, h⟩
  | cons op rest ih =>
    intro s h hw
    have hstep : IndexJs.runOps today (op :: rest) s =
        IndexJs.runOps today rest (IndexJs.applyOp today op s) := rfl
    cases op with
    | canUseOp u e b =>
      have ha : IndexJs.applyOp today (IndexJs.LimiterOp.canUseOp u e b) s = s := by
        simp [IndexJs.applyOp, IndexJs.canUse_state, IndexJs.resetIfNewDay_eq_self h]
      rw [hstep, ha]
      exact ih s h hw
    | remainingOp u e =>
      have ha : IndexJs.applyOp today (IndexJs.LimiterOp.remainingOp u e) s = s := by
        simp [IndexJs.applyOp, IndexJs.remainingFor_state, IndexJs.resetIfNewDay_eq_self h]
      rw [hstep, ha]
      exact ih s h hw
    | consumeOp u e b =>
      have hd : (IndexJs.consume u e b s).globalDayKey = today := by
        rw [IndexJs.consume_globalDayKey]; exact h
      have hw' := IndexJs.consume_wellFormed u e b s hw
      have hle := IndexJs.consume_countersLE u e b s
      obtain ⟨h1, h2, h3⟩ := ih (IndexJs.consume u e b s) hd hw'
      exact ⟨IndexJs.countersLE_trans hle h1, h2, h3⟩

/-- Witness running a concrete mixed operation sequence from a fresh
state. -/
theorem counters_monotone_witness :
    IndexJs.CountersLE (IndexJs.initState "2024-05-01")
      (IndexJs.runOps "2024-05-01" IndexJs.sampleOps (IndexJs.initState "2024-05-01")) ∧
    IndexJs.WellFormed
      (IndexJs.runOps "2024-05-01" IndexJs.sampleOps (IndexJs.initState "2024-05-01")) ∧
    (IndexJs.runOps "2024-05-01" IndexJs.sampleOps
        (IndexJs.initState "2024-05-01")).globalDayKey = "2024-05-01" :=
  counters_monotone "2024-05-01" IndexJs.sampleOps (IndexJs.initState "2024-05-01") rfl
    ⟨le_rfl, fun _ => ⟨le_rfl, le_rfl⟩⟩

/-- C2 counterexample: the bot-variant knowledge-base search of src/kb/kb.js
applies no score filter: on the store response with scores 0.5, 0.3, 0.1 it
returns all three hits — including the 0.1 hit, which lies below the 0.18
threshold — not just the first two as the claim states. -/
theorem kb_search_unfiltered_cex :
    KbJs.kbSearch Nat true [(100, 1/2), (200, 3/10), (300, 1/10)] =
      [(100, 1/2), (200, 3/10), (300, 1/10)] ∧
    (300, (1 : ℚ)/10) ∈ KbJs.kbSearch Nat true [(100, 1/2), (200, 3/10), (300, 1/10)] ∧
    (1 : ℚ)/10 < KbModule.SCORE_MIN ∧
    KbJs.kbSearch Nat true [(100, 1/2), (200, 3/10), (300, 1/10)] ≠
      [(100, 1/2), (200, 3/10)] := by
  refine ⟨by simp [KbJs.kbSearch], by simp [KbJs.kbSearch],
    by norm_num [KbModule.SCORE_MIN], ?_⟩
  intro h
  have hlen := congrArg List.length h
  simp [KbJs.kbSearch] at hlen

/-- C2 (amended): the knowledge-base module's search (src/unnamed/part_001)
embeds the query, filters out every hit scoring below SCORE_MIN = 0.18, and
returns the remaining hits as an order-preserving sublist of the store
response — so a descending-score response stays descending — and on scores
0.5, 0.3, 0.1 yields exactly the first two hits in order; the near-duplicate
kbSearch inside src/kb/kb.js, by contrast, filters nothing (see the
counterexample). -/
theorem kb_search_filter_amended :
    (∀ (α : Type) (res : List (α × ℚ)),
      (KbModule.kbSearch α true res).1 =
        res.filter (fun hit => decide (KbModule.SCORE_MIN ≤ hit.2))) ∧
    (∀ (α : Type) (res : List (α × ℚ)), (KbModule.kbSearch α true res).1.Sublist res) ∧
    (∀ (α : Type) (res : List (α × ℚ)) (x : α × ℚ),
      x ∈ (KbModule.kbSearch α true res).1 ↔ x ∈ res ∧ KbModule.SCORE_MIN ≤ x.2) ∧
    (∀ (α : Type) (res : List (α × ℚ)),
      res.Pairwise (fun a b => b.2 ≤ a.2) →
      (KbModule.kbSearch α true res).1.Pairwise (fun a b => b.2 ≤ a.2)) ∧
    KbModule.kbSearch Nat true [(100, 1/2), (200, 3/10), (300, 1/10)] =
      ([(100, 1/2), (200, 3/10)], [KbEffect.embedCall 1, KbEffect.searchCall]) := by
  have hfilter : ∀ (α : Type) (res : List (α × ℚ)),
      (KbModule.kbSearch α true res).1 =
        res.filter (fun hit => decide (KbModule.SCORE_MIN ≤ hit.2)) := by
    intro α res
    simp [KbModule.kbSearch]
  refine ⟨hfilter, ?_, ?_, ?_, ?_⟩
  · intro α res
    rw [hfilter]
    exact List.filter_sublist res
  · intro α res x
    rw [hfilter]
    simp [List.mem_filter]
  · intro α res h
    rw [hfilter]
    exact List.Pairwise.sublist (List.filter_sublist res) h
  · norm_num [KbModule.kbSearch, KbModule.SCORE_MIN, List.filter]

/-- Witness for the sortedness-preservation part of the search filter
theorem on a concrete descending store response. -/
theorem kb_search_filter_witness :
    ([(100, 1/2), (200, 3/10), (300, 1/10)] : List (Nat × ℚ)).Pairwise
      (fun a b => b.2 ≤ a.2) ∧
    (KbModule.kbSearch Nat true [(100, 1/2), (200, 3/10), (300, 1/10)]).1.Pairwise
      (fun a b => b.2 ≤ a.2) :=
  ⟨by norm_num [List.pairwise_cons],
   kb_search_filter_amended.2.2.2.1 Nat [(100, 1/2), (200, 3/10), (300, 1/10)]
     (by norm_num [List.pairwise_cons])⟩

/-- C8 (amended): in the kb.js bot variant's ask handler, whose KB search
runs inside its own try/catch, a timeout or error of the KB search step
leaves the contexts empty and the handler still produces an answer — the KB
failure never aborts the answer; in the src/index.js handler, by contrast,
a KB search error aborts the whole answer (see the counterexample). -/
theorem ask_kb_failure_tolerated_amended :
    (∀ (err : String) (llm : List String → String),
      KbJs.askHandler (Except.error err) llm = KbJs.AskOutcome.answer (llm [])) ∧
    (∀ (kbOutcome : Except String (List (String × String))) (llm : List String → String),
      ∃ text, KbJs.askHandler kbOutcome llm = KbJs.AskOutcome.answer text) := by
  refine ⟨fun err llm => rfl, fun kbOutcome llm => ?_⟩
  cases kbOutcome <;> exact ⟨_, rfl⟩

/-- C8 counterexample: in the src/index.js ask handler the KB search runs
inside the handler's single try block, so a KB search error jumps to the
catch and produces an error reply — the whole answer fails — while the same
handler with a successful empty search answers normally. -/
theorem ask_kb_failure_aborts_cex :
    IndexJs.askHandler (Except.error "kbSearch timed out") (fun _ => "llm answer") =
      KbJs.AskOutcome.errorReply ∧
    IndexJs.askHandler (Except.ok []) (fun _ => "llm answer") =
      KbJs.AskOutcome.answer "llm answer" ∧
    KbJs.AskOutcome.errorReply ≠ KbJs.AskOutcome.answer "llm answer" :=
  ⟨rfl, rfl, by decide⟩

end Render

namespace Render

namespace KbJs

lemma batchSizesGo_eq (n : Nat) : ∀ fuel, n ≤ fuel → batchSizesGo fuel n = batchSizes n := by
  induction n using Nat.strong_induction_on with
  | _ n ih =>
    intro fuel h
    cases n with
    | zero => cases fuel <;> rfl
    | succ m =>
      cases fuel with
      | zero => omega
      | succ g =>
        have h1 : batchSizesGo g (m + 1 - 32) = batchSizes (m + 1 - 32) :=
          ih (m + 1 - 32) (by omega) g (by omega)
        have h2 : batchSizesGo m (m + 1 - 32) = batchSizes (m + 1 - 32) :=
          ih (m + 1 - 32) (by omega) m (by omega)
        show min (m + 1) 32 :: batchSizesGo g (m + 1 - 32) =
          min (m + 1) 32 :: batchSizesGo m (m + 1 - 32)
        rw [h1, h2]

lemma batchSizes_succ (m : Nat) :
    batchSizes (m + 1) = min (m + 1) 32 :: batchSizes (m + 1 - 32) := by
  show min (m + 1) 32 :: batchSizesGo m (m + 1 - 32) = _
  rw [batchSizesGo_eq (m + 1 - 32) m (by omega)]

lemma batchSizes_bounds : ∀ (fuel m : Nat), m ≤ fuel → ∀ n ∈ batchSizesGo fuel m,
    0 < n ∧ n ≤ 32 := by
  intro fuel
  induction fuel with
  | zero =>
    intro m h n hn
    cases m with
    | zero => simp [batchSizesGo] at hn
    | succ k => omega
  | succ g ih =>
    intro m h n hn
    cases m with
    | zero => simp [batchSizesGo] at hn
    | succ k =>
      simp only [batchSizesGo, List.mem_cons] at hn
      rcases hn with hn | hn
      · subst hn
        omega
      · exact ih (k + 1 - 32) (by omega) n hn

lemma zip_self_map {α β : Type} (emb : α → β) :
    ∀ l : List α, l.zip (l.map emb) = l.map (fun a => (a, emb a)) := by
  intro l
  induction l with
  | nil => rfl
  | cons a l ih => simp [ih]

lemma embedSizes_batchTrace : ∀ sizes : List Nat, embedSizes (batchTrace sizes) = sizes := by
  intro sizes
  induction sizes with
  | nil => rfl
  | cons x r ih =>
    simp only [batchTrace, List.foldr_cons, embedSizes, List.filterMap_cons]
    simp only [batchTrace, embedSizes] at ih
    rw [ih]

lemma kbAddLoopGo_spec {α β : Type} (emb : α → β) :
    ∀ (fuel : Nat) (l : List α), l.length ≤ fuel →
      kbAddLoopGo emb fuel l =
        (l.length, batchTrace (batchSizes l.length), l.map (fun c => (c, emb c))) := by
  intro fuel
  induction fuel with
  | zero =>
    intro l h
    have hl : l = [] := List.eq_nil_of_length_eq_zero (Nat.le_zero.mp h)
    subst hl
    rfl
  | succ g ih =>
    intro l h
    cases l with
    | nil => rfl
    | cons c cs =>
      have hdrop : ((c :: cs).drop 32).length ≤ g := by
        simp only [List.length_drop]
        simp only [List.length_cons] at h ⊢
        omega
      have hrest := ih ((c :: cs).drop 32) hdrop
      simp only [kbAddLoopGo]
      rw [hrest, zip_self_map]
      refine Prod.ext ?_ (Prod.ext ?_ ?_)
      · simp only [List.length_map, List.length_take, List.length_drop, List.length_cons]
        omega
      · show KbEffect.embedCall ((c :: cs).take 32).length ::
            KbEffect.upsertCall (((c :: cs).take 32).map (fun a => (a, emb a))).length ::
            batchTrace (batchSizes ((c :: cs).drop 32).length) =
          batchTrace (batchSizes (c :: cs).length)
        rw [List.length_cons, batchSizes_succ]
        simp only [batchTrace, List.foldr_cons, List.length_map, List.length_take,
          List.length_cons, List.length_drop]
        rw [Nat.min_comm]
      · show ((c :: cs).take 32).map (fun a => (a, emb a)) ++
            ((c :: cs).drop 32).map (fun a => (a, emb a)) =
          (c :: cs).map (fun a => (a, emb a))
        rw [← List.map_append, List.take_append_drop]

end KbJs

/-- C7 counterexample: the knowledge-base module's `kbAddDoc`
(src/unnamed/part_001) does not batch at all — its enabled branch passes the
entire chunk list to one `embed(chunks)` provider call — so ingesting a
70-chunk document would issue a single embeddings call of size 70, not three
calls of sizes 32, 32, 6 with each batch at most 32. -/
theorem kbAddDoc_unbatched_cex :
    embedSizes (KbModule.kbAddDocCalls (List.replicate 70 ['a'])) = [70] ∧
    ¬ (70 ≤ 32) ∧ ([70] : List Nat) ≠ [32, 32, 6] := by
  refine ⟨by decide, by decide, by decide⟩

/-- C7 (amended): in the kb-add handler batch loop of src/kb/kb.js, the
chunk list is split into batches of at most 32 (each non-empty), batches
are processed strictly in order — the provider-call trace is exactly, per
batch in order, one embeddings call then one upsert — every chunk is paired
with its own vector in the original order, the inserted count equals the
chunk count, and a 70-chunk input yields exactly the embedding-call sizes
32, 32, 6.  The kb module's `kbAddDoc` (src/unnamed/part_001) instead
embeds all chunks in a single call (see the counterexample). -/
theorem kbadd_batching_amended :
    ∀ {α β : Type} (emb : α → β) (chunks : List α),
      (KbJs.kbAddLoop emb chunks).2.2 = chunks.map (fun c => (c, emb c)) ∧
      (KbJs.kbAddLoop emb chunks).1 = chunks.length ∧
      (KbJs.kbAddLoop emb chunks).2.1 =
        KbJs.batchTrace (KbJs.batchSizes chunks.length) ∧
      embedSizes (KbJs.kbAddLoop emb chunks).2.1 = KbJs.batchSizes chunks.length ∧
      (∀ n ∈ KbJs.batchSizes chunks.length, 0 < n ∧ n ≤ 32) ∧
      (chunks.length = 70 →
        embedSizes (KbJs.kbAddLoop emb chunks).2.1 = [32, 32, 6]) := by
  intro α β emb chunks
  have h1 : KbJs.kbAddLoop emb chunks =
      (chunks.length, KbJs.batchTrace (KbJs.batchSizes chunks.length),
       chunks.map (fun c => (c, emb c))) :=
    KbJs.kbAddLoopGo_spec emb chunks.length chunks le_rfl
  refine ⟨by rw [h1], by rw [h1], by rw [h1], ?_,
    KbJs.batchSizes_bounds chunks.length chunks.length le_rfl, ?_⟩
  · rw [h1]
    exact KbJs.embedSizes_batchTrace _
  · intro h70
    rw [h1, KbJs.embedSizes_batchTrace, h70]
    decide

/-- Witness running the batch loop on a concrete list of 70 strings'
stand-ins. -/
theorem kbadd_batching_witness :
    embedSizes (KbJs.kbAddLoop (fun n : Nat => n) (List.range 70)).2.1 = [32, 32, 6] ∧
    (KbJs.kbAddLoop (fun n : Nat => n) (List.range 70)).1 = (List.range 70).length ∧
    (KbJs.kbAddLoop (fun n : Nat => n) (List.range 70)).2.2 =
      (List.range 70).map (fun c => (c, c)) :=
  ⟨(kbadd_batching_amended (fun n : Nat => n) (List.range 70)).2.2.2.2.2 (by decide),
   (kbadd_batching_amended (fun n : Nat => n) (List.range 70)).2.1,
   (kbadd_batching_amended (fun n : Nat => n) (List.range 70)).1⟩

end Render

namespace Render

lemma jsSlice_coe (t : List Char) (a b : Nat) (hab : a ≤ b) (hb : b ≤ t.length) :
    jsSlice t (a : Int) (b : Int) = (t.drop a).take (b - a) := by
  simp only [jsSlice]
  have h1 : ¬ ((a : Int) < 0) := by omega
  have h2 : ¬ ((b : Int) < 0) := by omega
  rw [if_neg h1, if_neg h2]
  have h3 : min (a : Int) ((t.length : Nat) : Int) = (a : Int) := by omega
  have h4 : min (b : Int) ((t.length : Nat) : Int) = (b : Int) := by omega
  rw [h3, h4, Int.toNat_natCast, Int.toNat_natCast, List.drop_take b a t]

lemma jsSlice_length (t : List Char) (a b : Nat) (hab : a ≤ b) (hb : b ≤ t.length) :
    (jsSlice t (a : Int) (b : Int)).length = b - a := by
  rw [jsSlice_coe t a b hab hb]
  simp only [List.length_take, List.length_drop]
  omega

lemma jsSlice_zero_length (t : List Char) : jsSlice t 0 (t.length : Int) = t := by
  have h0 : ((0 : Nat) : Int) = 0 := rfl
  rw [← h0, jsSlice_coe t 0 t.length (Nat.zero_le _) le_rfl]
  simp

namespace ChunkJs

lemma chunkTextGo_diverges (t : List Char) (maxSize overlap : Nat) (hov : 1 ≤ overlap)
    (ht : 1 ≤ t.length) :
    ∀ (fuel : Nat) (i : Int) (out : List (List Char)), i < (t.length : Int) →
      chunkTextGo fuel t maxSize overlap i out = none := by
  intro fuel
  induction fuel with
  | zero => intro i out _; rfl
  | succ g ih =>
    intro i out h
    simp only [chunkTextGo]
    rw [if_pos h]
    apply ih
    split <;> omega

end ChunkJs

namespace KbJs

lemma chunkTextGo_diverges_abc :
    ∀ (fuel : Nat) (i : Int) (chunks : List (List Char)), i ≤ 0 →
      chunkTextGo fuel "abc".toList 1 2 i chunks = none := by
  intro fuel
  induction fuel with
  | zero => intro i chunks _; rfl
  | succ g ih =>
    intro i chunks h
    have hlen : "abc".toList.length = 3 := by decide
    simp only [chunkTextGo]
    rw [if_pos (by omega : i < ("abc".toList.length : Int))]
    rw [if_neg (by omega : ¬ (min (i + ((1 : Nat) : Int)) ("abc".toList.length : Int) =
      ("abc".toList.length : Int)))]
    apply ih
    omega

lemma chunkTextGo_spec (t : List Char) (cs ov : Nat) (hov : ov < cs) :
    ∀ (fuel n : Nat) (acc : List (List Char)), n < t.length → ov < t.length - n →
      (t.length - n - ov - 1) / (cs - ov) + 1 ≤ fuel →
      ∃ rest, chunkTextGo fuel t cs ov (n : Int) acc = some (acc ++ rest) ∧
        rest.length = (t.length - n - ov - 1) / (cs - ov) + 1 ∧
        ∀ c ∈ rest, c.length ≤ cs := by
  intro fuel
  induction fuel with
  | zero => intro n acc _ _ h3; exact absurd h3 (Nat.not_succ_le_zero _)
  | succ g ih =>
    intro n acc h1 h2 h3
    have hg : (n : Int) < (t.length : Int) := by exact_mod_cast h1
    simp only [chunkTextGo]
    rw [if_pos hg]
    by_cases hcase : t.length ≤ n + cs
    · have he : min ((n : Int) + ((cs : Nat) : Int)) ((t.length : Nat) : Int) =
          ((t.length : Nat) : Int) := by omega
      rw [he, if_pos rfl]
      refine ⟨[jsSlice t (n : Int) (t.length : Int)], rfl, ?_, ?_⟩
      · have hlt : t.length - n - ov - 1 < cs - ov := by omega
        rw [List.length_singleton _, Nat.div_eq_of_lt hlt]
      · intro c hc
        have hc' : c = jsSlice t (n : Int) (t.length : Int) := by simpa using hc
        subst hc'
        rw [jsSlice_length t n t.length (by omega) le_rfl]
        omega
    · have he : min ((n : Int) + ((cs : Nat) : Int)) ((t.length : Nat) : Int) =
          (((n + cs : Nat) : Nat) : Int) := by push_cast; omega
      rw [he]
      rw [if_neg (by push_cast; omega :
        ¬ (((n + cs : Nat) : Int) = ((t.length : Nat) : Int)))]
      have hstep : ((n + cs : Nat) : Int) - ((ov : Nat) : Int) = ((n + cs - ov : Nat) : Int) := by
        push_cast; omega
      rw [hstep]
      have hdiv : (t.length - n - ov - 1) / (cs - ov) =
          (t.length - (n + cs - ov) - ov - 1) / (cs - ov) + 1 := by
        have hx : t.length - n - ov - 1 = (t.length - (n + cs - ov) - ov - 1) + (cs - ov) := by
          omega
        rw [hx, Nat.add_div_right _ (by omega : 0 < cs - ov)]
      obtain ⟨rest, hr1, hr2, hr3⟩ :=
        ih (n + cs - ov) (acc ++ [jsSlice t (n : Int) ((n + cs : Nat) : Int)])
          (by omega) (by omega) (by omega)
      refine ⟨jsSlice t (n : Int) ((n + cs : Nat) : Int) :: rest, ?_, ?_, ?_⟩
      · rw [hr1, List.append_assoc]
        rfl
      · rw [List.length_cons, hr2, hdiv]
      · intro c hc
        rcases List.mem_cons.1 hc with hc' | hc'
        · subst hc'
          rw [jsSlice_length t n (n + cs) (by omega) (by omega)]
          omega
        · exact hr3 c hc'

end KbJs

end Render

namespace Render

/-- C1 (bug evidence): the chunkers do not terminate.  For src/kb/chunk.js,
once the window end reaches a point where `end - overlap` does not pass the
end of input, the clamped position stays below the text length forever, so
for every fuel the loop is still running: already on the one-character text
a with maxSize 1 and overlap 1, and equally on the text hello under the
module's own defaults maxSize 900 / overlap 100 (the configuration
`kbAddDoc` itself uses).  The src/kb/kb.js variant, which has no clamp,
also loops forever when overlap ≥ chunkSize (here chunkSize 1, overlap 2 on
the text abc): its position only decreases. -/
theorem chunker_nontermination_bug :
    (∀ fuel, ChunkJs.chunkText fuel "a".toList 1 1 = none) ∧
    (∀ fuel, ChunkJs.chunkText fuel "hello".toList 900 100 = none) ∧
    (∀ fuel, KbJs.chunkTextGo fuel "abc".toList 1 2 0 [] = none) := by
  refine ⟨fun fuel => ?_, fun fuel => ?_,
    fun fuel => KbJs.chunkTextGo_diverges_abc fuel 0 [] le_rfl⟩
  · exact ChunkJs.chunkTextGo_diverges ("a".toList.filter (fun c => c ≠ '\r')) 1 1
      le_rfl (by decide) fuel 0 [] (by decide)
  · exact ChunkJs.chunkTextGo_diverges ("hello".toList.filter (fun c => c ≠ '\r')) 900 100
      (by decide) (by decide) fuel 0 [] (by decide)

/-- C4 counterexample: on the empty input text both chunkers return an
empty chunk list — zero chunks — whereas the claim's count formula demands
one chunk whenever the text length is not greater than the overlap,
including the empty text. -/
theorem chunker_empty_text_cex :
    KbJs.chunkText ([] : List Char) 10 0 = some [] ∧
    ChunkJs.chunkText 1 ([] : List Char) 10 0 = some [] ∧
    (KbJs.chunkText ([] : List Char) 10 0).map List.length = some 0 ∧
    some (0 : Nat) ≠ some 1 := by
  refine ⟨by decide, by decide, by decide, by decide⟩

/-- C4 (amended): for the terminating chunker (src/kb/kb.js `chunkText`),
for every text, `max ≥ 1` and `0 ≤ overlap < max`: the loop terminates
(within `length + 1` iterations), every chunk has length at most `max`, and
the number of chunks is `⌈(len − overlap) / (max − overlap)⌉` — written
below as `(len − overlap − 1) / (max − overlap) + 1` — when
`len > overlap`, is `1` when `0 < len ≤ overlap`, and is `0` (not 1) for
the empty text; concretely, a 25-character string with `max = 10`,
`overlap = 0` yields exactly the three chunks of lengths 10, 10, 5.
(The src/kb/chunk.js chunker agrees on the overlap-0 case but diverges for
any positive overlap; see C1.) -/
theorem kbjs_chunker_spec :
    (∀ (t : List Char) (cs ov : Nat), ov < cs →
      ∃ l, KbJs.chunkText t cs ov = some l ∧
        (∀ c ∈ l, c.length ≤ cs) ∧
        (ov < t.length → l.length = (t.length - ov - 1) / (cs - ov) + 1) ∧
        (0 < t.length → t.length ≤ ov → l.length = 1) ∧
        (t.length = 0 → l = [])) ∧
    KbJs.chunkText "abcdefghijklmnopqrstuvwxy".toList 10 0 =
      some ["abcdefghij".toList, "klmnopqrst".toList, "uvwxy".toList] := by
  constructor
  · intro t cs ov hov
    rcases Nat.eq_zero_or_pos t.length with hlen | hlen
    · refine ⟨[], ?_, by simp, by omega, by omega, fun _ => rfl⟩
      unfold KbJs.chunkText
      have hfuel : t.length + 1 = 0 + 1 := by omega
      rw [hfuel]
      simp only [KbJs.chunkTextGo]
      rw [if_neg (by omega : ¬ ((0 : Int) < (t.length : Int)))]
    · by_cases hle : t.length ≤ ov
      · refine ⟨[t], ?_, ?_, by omega, fun _ _ => rfl, by omega⟩
        · unfold KbJs.chunkText
          simp only [KbJs.chunkTextGo]
          rw [if_pos (by omega : (0 : Int) < ((t.length : Nat) : Int))]
          rw [show min ((0 : Int) + ((cs : Nat) : Int)) ((t.length : Nat) : Int) =
                ((t.length : Nat) : Int) by omega]
          rw [if_pos rfl, jsSlice_zero_length t]
          rfl
        · intro c hc
          have hc' : c = t := by simpa using hc
          subst hc'
          omega
      · push_neg at hle
        have hfuel : (t.length - 0 - ov - 1) / (cs - ov) + 1 ≤ t.length + 1 := by
          have hd := Nat.div_le_self (t.length - 0 - ov - 1) (cs - ov)
          omega
        obtain ⟨rest, hr1, hr2, hr3⟩ :=
          KbJs.chunkTextGo_spec t cs ov hov (t.length + 1) 0 [] hlen (by omega) hfuel
        refine ⟨rest, ?_, hr3, ?_, by omega, by omega⟩
        · unfold KbJs.chunkText
          simpa using hr1
        · intro _
          rw [hr2]
          norm_num
  · decide

/-- Witness for the amended chunker specification on the three-character
text abc with chunkSize 2, overlap 1. -/
theorem kbjs_chunker_spec_witness :
    ∃ l, KbJs.chunkText "abc".toList 2 1 = some l ∧
      (∀ c ∈ l, c.length ≤ 2) ∧
      (1 < "abc".toList.length →
        l.length = ("abc".toList.length - 1 - 1) / (2 - 1) + 1) ∧
      (0 < "abc".toList.length → "abc".toList.length ≤ 1 → l.length = 1) ∧
      ("abc".toList.length = 0 → l = []) :=
  kbjs_chunker_spec.1 "abc".toList 2 1 (by decide)

end Render
